import Mathlib

set_option maxRecDepth 100000

/-!
# Verification of the `wheel-hid-emulator` virtual G29 wheel core

Shallow embedding of `src/wheel_device.cpp` (class `WheelDevice`): the
HID report codec (`BuildHIDReportLocked`, `BuildButtonBitsLocked`), the
FFB output-report decoder (`ParseFFBCommand`), the state mutation
helpers (`ApplySteeringDeltaLocked`, `ApplySteeringLocked`,
`ApplySnapshotLocked`, `ApplyNeutralLocked`), one FFB physics tick (the
body of `FFBUpdateThread`, with `ShapeFFBTorque`), and the
enable/disable state machine of `SetEnabled`, as a sequential
transition system over the mutex-protected state.

The C++ code computes in IEEE-754 binary32.  We model a `float` as a
dyadic rational `m * 2^e` with integer significand and exponent, and
every arithmetic operation as the exact result rounded back to a 24-bit
significand (round to nearest, ties to even — the IEEE default).  The
program's values never leave the normal range, so overflow to infinity
and subnormal underflow are not modelled.  `std::exp` is
transcendental; the FFB tick is therefore parameterised by the function
used for it, and the theorems about the tick hold for every such
function.
-/

namespace WheelHid

/-! ## Exact model of binary32 values: dyadic rationals `m * 2^e` -/

/-- A binary32 value, represented exactly as `m * 2^e`.  All values
produced by the model are canonical: `m` is odd, or `m = 0 ∧ e = 0`;
hence value equality coincides with structural equality (the C++ `==`
on floats). -/
structure F where
  m : ℤ
  e : ℤ
deriving DecidableEq, Repr

/-- The float `+0.0`.  (The model never produces `-0.0`; the two
compare equal in C++ and behave identically in every operation the
program performs.) -/
def F.zero : F := ⟨0, 0⟩

/-- Fuel-driven `⌊log2⌋` (structural recursion, so that kernel
reduction works; `Nat.log2` itself is defined by well-founded
recursion). -/
def natLog2F : ℕ → ℕ → ℕ
  | 0, _ => 0
  | fuel + 1, n => if 2 ≤ n then natLog2F fuel (n / 2) + 1 else 0

/-- Number of bits of `n` (`0` for `0`). -/
def natBitLen (n : ℕ) : ℕ := if n = 0 then 0 else natLog2F n n + 1

/-- Strip factors of two from the significand into the exponent
(fuel-driven; the fuel is an upper bound on the number of trailing
zero bits). -/
def stripTZ : ℕ → ℤ → ℤ → F
  | 0, m, e => ⟨m, e⟩
  | fuel + 1, m, e => if m % 2 = 0 then stripTZ fuel (m / 2) (e + 1) else ⟨m, e⟩

/-- Canonicalise `m * 2^e`: make `m` odd (or the value `F.zero`). -/
def canon (m : ℤ) (e : ℤ) : F := if m = 0 then ⟨0, 0⟩ else stripTZ m.natAbs m e

/-- Round the value `(±n) * 2^e` to a 24-bit significand, round to
nearest, ties to even.  `sticky = true` records that the true magnitude
is strictly larger than `n * 2^e` by less than one unit of `n`'s last
bit; callers passing `sticky = true` guarantee `n` has at least 25
bits, so the sticky information sits below the rounding point. -/
def roundMag (n : ℕ) (e : ℤ) (neg : Bool) (sticky : Bool) : F :=
  if n = 0 then ⟨0, 0⟩
  else
    let L := natBitLen n
    if L ≤ 24 then canon (if neg then -(n : ℤ) else (n : ℤ)) e
    else
      let k := L - 24
      let q := n / 2 ^ k
      let r := n % 2 ^ k
      let half := 2 ^ (k - 1)
      let m :=
        if half < r then q + 1
        else if r < half then q
        else if sticky then q + 1
        else if q % 2 = 0 then q else q + 1
      canon (if neg then -(m : ℤ) else (m : ℤ)) (e + k)

/-- Round the exact dyadic `m * 2^e` to binary32. -/
def froundZ (m : ℤ) (e : ℤ) : F :=
  roundMag m.natAbs e (if m < 0 then true else false) false

/-- `static_cast<float>` of an integer (exact for the magnitudes this
program uses; correctly rounded otherwise). -/
def F.ofInt (z : ℤ) : F := froundZ z 0

/-- Bring two values to a common exponent (`min a.e b.e`), returning
the two scaled significands. -/
def F.scaledPair (a b : F) : ℤ × ℤ :=
  if a.e ≤ b.e then (a.m, b.m * ((2 ^ (b.e - a.e).toNat : ℕ) : ℤ))
  else (a.m * ((2 ^ (a.e - b.e).toNat : ℕ) : ℤ), b.m)

/-- Value order on binary32 models. -/
def F.lt (a b : F) : Prop := (F.scaledPair a b).1 < (F.scaledPair a b).2

/-- Value order (non-strict) on binary32 models. -/
def F.le (a b : F) : Prop := (F.scaledPair a b).1 ≤ (F.scaledPair a b).2

instance (a b : F) : Decidable (F.lt a b) := by unfold F.lt; exact inferInstance

instance (a b : F) : Decidable (F.le a b) := by unfold F.le; exact inferInstance

/-- Negation (exact on floats). -/
def fneg (a : F) : F := ⟨-a.m, a.e⟩

/-- `std::fabs` (exact on floats). -/
def fabsF (a : F) : F := ⟨(a.m.natAbs : ℤ), a.e⟩

/-- binary32 addition: exact sum, then rounding. -/
def fadd (a b : F) : F :=
  let p := F.scaledPair a b
  froundZ (p.1 + p.2) (min a.e b.e)

/-- binary32 subtraction. -/
def fsub (a b : F) : F := fadd a (fneg b)

/-- binary32 multiplication: exact product, then rounding. -/
def fmul (a b : F) : F := froundZ (a.m * b.m) (a.e + b.e)

/-- binary32 division, correctly rounded: compute a quotient of at
least 25 bits and fold the remainder into a sticky bit.  Division by
zero never occurs in the embedded code (all divisors are nonzero
constants); it is mapped to `0`. -/
def fdiv (a b : F) : F :=
  if a.m = 0 ∨ b.m = 0 then ⟨0, 0⟩
  else
    let n1 := a.m.natAbs
    let n2 := b.m.natAbs
    let k : ℤ := 25 + (natBitLen n2 : ℤ) - (natBitLen n1 : ℤ)
    let num := if 0 ≤ k then n1 * 2 ^ k.toNat else n1
    let den := if 0 ≤ k then n2 else n2 * 2 ^ (-k).toNat
    let q := num / den
    let r := num % den
    let neg : Bool := if a.m < 0 then (if b.m < 0 then false else true)
                      else (if b.m < 0 then true else false)
    roundMag q (a.e - b.e - k) neg (if r = 0 then false else true)

/-- `std::clamp(v, lo, hi)`: float comparisons are exact, no rounding. -/
def clampF (v lo hi : F) : F := if F.lt v lo then lo else if F.lt hi v then hi else v

/-- Float-to-integer conversion (`static_cast` to an integer type):
truncation toward zero. -/
def truncF (a : F) : ℤ :=
  if 0 ≤ a.e then a.m * ((2 ^ a.e.toNat : ℕ) : ℤ)
  else
    let d : ℕ := 2 ^ (-a.e).toNat
    if a.m < 0 then -((a.m.natAbs / d : ℕ) : ℤ) else ((a.m.natAbs / d : ℕ) : ℤ)

/-- The exact rational value of a binary32 model (used only in
spec-side statements, never in executable code paths). -/
def F.toQ (a : F) : ℚ :=
  if 0 ≤ a.e then (a.m : ℚ) * ((2 ^ a.e.toNat : ℕ) : ℚ)
  else (a.m : ℚ) / ((2 ^ (-a.e).toNat : ℕ) : ℚ)

/-- The value of the `float` literal `655.35f`. -/
def lit655_35 : F := fdiv (F.ofInt 65535) (F.ofInt 100)

/-- The value of the `float` literal `0.05f` (`base_gain`). -/
def lit0_05 : F := fdiv (F.ofInt 1) (F.ofInt 20)

/-- The value of the `float` literal `0.1f` (steering update threshold,
`SetFFBGain` lower clamp). -/
def lit0_1 : F := fdiv (F.ofInt 1) (F.ofInt 10)

/-- The value of the `float` literal `0.01f` (FFB `dt` upper clamp). -/
def lit0_01 : F := fdiv (F.ofInt 1) (F.ofInt 100)

/-- The value of the `float` literal `0.001f` (FFB `dt` lower clamp). -/
def lit0_001 : F := fdiv (F.ofInt 1) (F.ofInt 1000)

/-- The value of the `float` literal `0.25f` (`min_gain`, exact). -/
def lit0_25 : F := ⟨1, -2⟩

/-- The value of the `float` literal `0.75f` (`1.0f - min_gain`, exact). -/
def lit0_75 : F := ⟨3, -2⟩

/-! ## Data model (`wheel_device.h`, `wheel_input.h`, `wheel_types.h`) -/

/-- `struct WheelInputState`: pedal booleans, dpad signs, and the
26-entry button bitmap (`std::array<uint8_t, 26>`, always holding 0/1,
modelled as a list of booleans). -/
structure WheelInputState where
  throttle : Bool
  brake : Bool
  clutch : Bool
  dpad_x : ℤ
  dpad_y : ℤ
  buttons : List Bool
deriving DecidableEq, Repr

/-- The all-neutral input snapshot (default-constructed `WheelInputState`). -/
def neutralSnap : WheelInputState := ⟨false, false, false, 0, 0, List.replicate 26 false⟩

/-- The mutex-protected fields of `class WheelDevice` that make up the
wheel state. `float` fields become `F`, `int8_t`/`int16_t` fields
become `ℤ` (their operations never wrap in this code, except where the
wrap is modelled explicitly in `ParseFFBCommand`). -/
structure WheelState where
  steering : F
  user_steering : F
  ffb_offset : F
  ffb_velocity : F
  ffb_gain : F
  throttle : F
  brake : F
  clutch : F
  button_states : List Bool
  dpad_x : ℤ
  dpad_y : ℤ
  ffb_force : ℤ
  ffb_autocenter : ℤ
deriving DecidableEq, Repr

/-- The state established by the `WheelDevice` constructor. -/
def initialWheelState : WheelState :=
  { steering := F.zero, user_steering := F.zero, ffb_offset := F.zero
    ffb_velocity := F.zero, ffb_gain := F.ofInt 1, throttle := F.zero
    brake := F.zero, clutch := F.zero
    button_states := List.replicate 26 false
    dpad_x := 0, dpad_y := 0, ffb_force := 0, ffb_autocenter := 0 }

/-! ## Report codec (`BuildHIDReportLocked`, `BuildButtonBitsLocked`) -/

/-- `static_cast<uint16_t>(axis * 655.35f)`: binary32 product, then
truncating float-to-integer conversion (reduced mod 2^16 for totality;
the reachable axis values 0.0 and 100.0 never need the reduction). -/
def pedalRawU16 (x : F) : ℕ := ((truncF (fmul x lit655_35)).emod 65536).toNat

/-- The 16-bit value stored for one pedal axis:
`65535 - static_cast<uint16_t>(axis * 655.35f)`. -/
def pedalEnc (x : F) : ℕ := 65535 - pedalRawU16 x

/-- `static_cast<uint16_t>(static_cast<int16_t>(steering) + 32768)`. -/
def steeringU16 (x : F) : ℕ := ((truncF x + 32768).emod 65536).toNat

/-- The hat nibble from the dpad signs (`BuildHIDReportLocked`,
the cascade of `if` tests; 0x0F when centred or in an impossible
combination). -/
def hatNibble (dx dy : ℤ) : ℕ :=
  if dy = -1 ∧ dx = 0 then 0
  else if dy = -1 ∧ dx = 1 then 1
  else if dy = 0 ∧ dx = 1 then 2
  else if dy = 1 ∧ dx = 1 then 3
  else if dy = 1 ∧ dx = 0 then 4
  else if dy = 1 ∧ dx = -1 then 5
  else if dy = 0 ∧ dx = -1 then 6
  else if dy = -1 ∧ dx = -1 then 7
  else 0x0F

/-- `BuildButtonBitsLocked`: or together `1u << i` for every pressed
button index `i < 26` (the array size is fixed at 26 by
`WheelButton::Count`). -/
def buildButtonBitsLocked (bs : List Bool) : ℕ :=
  (List.range 26).foldl (fun bits i => if bs.getD i false then bits ||| (1 <<< i) else bits) 0

/-- `BuildHIDReportLocked`: the 13-byte input report.  Byte order as
in the source: steering (0-1), clutch (2-3), throttle (4-5),
brake (6-7), hat (8), buttons (9-12); all multi-byte fields
little-endian. -/
def BuildHIDReportLocked (ws : WheelState) : List ℕ :=
  let su := steeringU16 ws.steering
  let cu := pedalEnc ws.clutch
  let tu := pedalEnc ws.throttle
  let bu := pedalEnc ws.brake
  let hat := hatNibble ws.dpad_x ws.dpad_y
  let bits := buildButtonBitsLocked ws.button_states
  [su % 256, su / 256 % 256,
   cu % 256, cu / 256 % 256,
   tu % 256, tu / 256 % 256,
   bu % 256, bu / 256 % 256,
   hat % 16,
   bits % 256, bits / 2 ^ 8 % 256, bits / 2 ^ 16 % 256, bits / 2 ^ 24 % 256]

/-! ## FFB output-report decoding (`ParseFFBCommand`) -/

/-- Reinterpret a byte as `int8_t` (`static_cast<int8_t>(uint8_t)`). -/
def i8ofByte (b : ℕ) : ℤ := if b < 128 then (b : ℤ) else (b : ℤ) - 256

/-- Wrap an integer into `int8_t` range (the implementation-defined
narrowing the source relies on when storing `int8_t(data[2]) - 0x80`). -/
def i8wrap (x : ℤ) : ℤ := (x + 128) % 256 - 128

/-- The `switch` of `ParseFFBCommand` acting on the only two fields it
writes: given current `ffb_force` and `ffb_autocenter`, return their
new values and whether the FFB condition variable is notified
(`state_changed`).  Packets whose size is not 7 are dropped before the
lock; under the lock nothing happens unless `enabled`. -/
def parseFFBCore (enabled : Bool) (force ac : ℤ) (data : List ℕ) : ℤ × ℤ × Bool :=
  if data.length ≠ 7 then (force, ac, false)
  else if ¬enabled then (force, ac, false)
  else
    let cmd := data.getD 0 0
    if cmd = 0x11 then
      -- constant force slot update: int8_t force = int8_t(data[2]) - 0x80
      let f := i8wrap (i8ofByte (data.getD 2 0) - 0x80)
      (-f * 48, ac, true)
    else if cmd = 0x13 then (0, ac, true)
    else if cmd = 0xf5 then
      if ac ≠ 0 then (force, 0, true) else (force, ac, false)
    else if cmd = 0xfe then
      if data.getD 1 0 = 0x0d then
        let strength : ℤ := (data.getD 2 0 : ℤ) * 16
        if ac ≠ strength then (force, strength, true) else (force, ac, false)
      else (force, ac, false)
    else if cmd = 0x14 then
      if ac = 0 then (force, 1024, true) else (force, ac, false)
    else (force, ac, false)  -- 0xf8 extended commands and unknown commands: ignored

/-- `ParseFFBCommand(data, size)`: decode one 7-byte FFB output report
into the state; the second component records whether `ffb_cv` was
notified. -/
def ParseFFBCommand (enabled : Bool) (ws : WheelState) (data : List ℕ) :
    WheelState × Bool :=
  let c := parseFFBCore enabled ws.ffb_force ws.ffb_autocenter data
  ({ ws with ffb_force := c.1, ffb_autocenter := c.2.1 }, c.2.2)

/-! ## State mutation helpers -/

/-- `ApplySteeringLocked`: recompute `steering` from
`user_steering + ffb_offset`, clamped to `[-32768, 32767]`; leave it
unchanged (returning `false`) when the recomputed value differs by less
than `0.1f`. -/
def ApplySteeringLocked (ws : WheelState) : WheelState × Bool :=
  let combined := clampF (fadd ws.user_steering ws.ffb_offset)
      (F.ofInt (-32768)) (F.ofInt 32767)
  if F.lt (fabsF (fsub combined ws.steering)) lit0_1 then (ws, false)
  else ({ ws with steering := combined }, true)

/-- `ApplySteeringDeltaLocked(delta, sensitivity)`: scale the mouse
delta by `sensitivity * 0.05f`, clamp the step to ±2000, accumulate
into `user_steering`, clamp to ±32767, recompute `steering`. -/
def ApplySteeringDeltaLocked (ws : WheelState) (delta sensitivity : ℤ) :
    WheelState × Bool :=
  if delta = 0 then (ws, false)
  else
    let gain := fmul (F.ofInt sensitivity) lit0_05
    let step := clampF (fmul (F.ofInt delta) gain) (F.ofInt (-2000)) (F.ofInt 2000)
    let u := clampF (fadd ws.user_steering step) (F.ofInt (-32767)) (F.ofInt 32767)
    ApplySteeringLocked { ws with user_steering := u }

/-- `ApplySnapshotLocked`: coerce each pedal to 0.0/100.0, copy dpad
signs and the button array, reporting whether anything changed. -/
def ApplySnapshotLocked (ws : WheelState) (snap : WheelInputState) :
    WheelState × Bool :=
  let nextT : F := if snap.throttle then F.ofInt 100 else F.zero
  let nextB : F := if snap.brake then F.ofInt 100 else F.zero
  let nextC : F := if snap.clutch then F.ofInt 100 else F.zero
  let c1 := if ws.throttle = nextT then false else true
  let c2 := if ws.brake = nextB then false else true
  let c3 := if ws.clutch = nextC then false else true
  let c4 := if ws.dpad_x = snap.dpad_x then false else true
  let c5 := if ws.dpad_y = snap.dpad_y then false else true
  let c6 := if ws.button_states = snap.buttons then false else true
  ({ ws with throttle := nextT, brake := nextB, clutch := nextC
             dpad_x := snap.dpad_x, dpad_y := snap.dpad_y
             button_states := snap.buttons },
   c1 || c2 || c3 || c4 || c5 || c6)

/-- `ApplyNeutralLocked(reset_ffb)`: zero steering, pedals, dpad and
buttons; zero `ffb_offset`/`ffb_velocity` only when `reset_ffb`.
(`ffb_force`, `ffb_autocenter` and `ffb_gain` are not touched.) -/
def ApplyNeutralLocked (reset_ffb : Bool) (ws : WheelState) : WheelState :=
  { ws with steering := F.zero, user_steering := F.zero
            ffb_offset := if reset_ffb then F.zero else ws.ffb_offset
            ffb_velocity := if reset_ffb then F.zero else ws.ffb_velocity
            throttle := F.zero, brake := F.zero, clutch := F.zero
            dpad_x := 0, dpad_y := 0
            button_states := List.replicate 26 false }

/-! ## FFB physics (`ShapeFFBTorque` and one `FFBUpdateThread` tick) -/

/-- `ShapeFFBTorque(raw_force)`: sub-threshold attenuation below 80,
then the slip-weight / heavy-force gain curve, boosted by 3. -/
def ShapeFFBTorque (raw : F) : F :=
  let a := fabsF raw
  if F.lt a (F.ofInt 80) then fmul raw (fdiv a (F.ofInt 80))
  else
    -- t = clamp((a - 80) / (slip_full - 80), 0, 1); slip_weight = t²
    let t := clampF (fdiv (fsub a (F.ofInt 80)) (F.ofInt 13920)) F.zero (F.ofInt 1)
    let slip_weight := fmul t t
    let gain :=
      if F.lt (F.ofInt 4000) a then
        let heavy := clampF (fdiv (fsub a (F.ofInt 4000)) (F.ofInt 10000)) F.zero (F.ofInt 1)
        fadd lit0_25 (fmul lit0_75 heavy)
      else fadd lit0_25 (fmul slip_weight lit0_75)
    fmul (fmul raw gain) (F.ofInt 3)

/-- The snapshot one FFB tick reads under the state mutex, plus the
FFB thread's local low-pass accumulator `filtered_ffb`. -/
structure FFBTickIn where
  force : ℤ
  autocenter : ℤ
  offset : F
  velocity : F
  gain : F
  steering : F
  filtered : F
deriving DecidableEq, Repr

/-- Everything one FFB tick computes before the final ±22000 clamp on
the offset: the unclamped new offset, the (velocity-clamped) new
velocity, and the new low-pass accumulator.  `expf` stands for
`std::exp` on binary32 values; every theorem below holds for an
arbitrary such function.  `dtRaw` is the measured duration; the tick
clamps it to `[0.001f, 0.01f]` exactly as the source does. -/
def ffbTickPre (expf : F → F) (inp : FFBTickIn) (dtRaw : F) : F × F × F :=
  let dt0 := if F.le dtRaw F.zero then lit0_001 else dtRaw
  let dt := if F.lt lit0_01 dt0 then lit0_01 else dt0
  let commanded := ShapeFFBTorque (F.ofInt inp.force)
  -- alpha = clamp(1 - exp(-dt * 38), 0, 1)
  let alpha := clampF (fsub (F.ofInt 1) (expf (fmul (fneg dt) (F.ofInt 38)))) F.zero (F.ofInt 1)
  let filtered := fadd inp.filtered (fmul (fsub commanded inp.filtered) alpha)
  -- spring = autocenter > 0 ? -(steering * autocenter) / 32768 : 0
  let spring :=
    if 0 < inp.autocenter then
      fdiv (fneg (fmul inp.steering (F.ofInt inp.autocenter))) (F.ofInt 32768)
    else F.zero
  let target := clampF (fmul (fadd filtered spring) inp.gain)
      (F.ofInt (-22000)) (F.ofInt 22000)
  let error := fsub target inp.offset
  let v1 := fadd inp.velocity (fmul (fmul error (F.ofInt 120)) dt)
  let v2 := fmul v1 (expf (fmul (fneg (F.ofInt 8)) dt))
  let v3 := clampF v2 (F.ofInt (-90000)) (F.ofInt 90000)
  (fadd inp.offset (fmul v3 dt), v3, filtered)

/-- One complete FFB tick: `ffbTickPre` followed by the hard ±22000
clamp on the offset, which zeroes the velocity when it fires.  Returns
(new `ffb_offset`, new `ffb_velocity`, new `filtered_ffb`). -/
def ffbTick (expf : F → F) (inp : FFBTickIn) (dtRaw : F) : F × F × F :=
  let pre := ffbTickPre expf inp dtRaw
  if F.lt (F.ofInt 22000) pre.1 then (F.ofInt 22000, F.zero, pre.2.2)
  else if F.lt pre.1 (F.ofInt (-22000)) then (F.ofInt (-22000), F.zero, pre.2.2)
  else pre

/-! ## The device state machine (`SetEnabled` and friends)

The threads of `WheelDevice` mutate the shared state only inside
critical sections of `state_mutex`, and enable/disable transitions are
serialised by `enable_mutex`.  We model the system as a sequential
transition system whose steps are those critical sections.
Host-environment outcomes (device grabbing, UDC binding, endpoint
readiness, pump flush, the fallback blocking write) are the boolean
parameters of the `enable` step, mirroring the branch structure of
`SetEnabled`.

The enable path of `SetEnabled(true)` is NOT atomic in the source: it
stores `enabled = true` at the start (line 120) and `output_enabled =
true` at line 186, and only then applies neutral (line 192) and waits
up to 150 ms in `WaitForStateFlush` (line 196).  While both flags are
true, the FFB thread (`FFBUpdateThread`, gated on
`enabled && output_enabled`) and the read pump (`ReadGadgetOutput`,
gated on `output_enabled`, with `ParseFFBCommand` checking `enabled`
under the lock) interleave with the enable path; a flush-then-prime
failure (lines 198-208) then reverts `enabled` WITHOUT re-applying
neutral.  The `enable` step therefore carries two lists of window
operations (`WinOp`): the interleavings between the `output_enabled`
store and the neutral application, and those during the flush wait.
Everywhere else in the enable/disable paths one of the two gate flags
is false, so the internal threads cannot mutate the state there.
`ProcessInputFrame` and `SetEnabled` are invoked from the facade's
caller (the main input loop), so input frames do not interleave with
the enable path; they appear only as top-level trace operations. -/

/-- The device-level state: the `enabled` flag (guarded by
`state_mutex`), the `output_enabled` atomic, the wheel state, and the
FFB thread's local `filtered_ffb` accumulator. -/
structure Device where
  enabled : Bool
  output_enabled : Bool
  ws : WheelState
  filtered : F

/-- The device right after construction (`WheelDevice::WheelDevice`). -/
def initialDevice : Device :=
  { enabled := false, output_enabled := false, ws := initialWheelState
    filtered := F.zero }

/-- One iteration of `FFBUpdateThread`: skip unless
`enabled && output_enabled`; otherwise snapshot under the lock, run the
physics tick, write back `ffb_offset`/`ffb_velocity` and recompute
`steering`. -/
def devTick (d : Device) (expf : F → F) (dtRaw : F) : Device :=
  if d.enabled && d.output_enabled then
    let out := ffbTick expf
      { force := d.ws.ffb_force, autocenter := d.ws.ffb_autocenter
        offset := d.ws.ffb_offset, velocity := d.ws.ffb_velocity
        gain := d.ws.ffb_gain, steering := d.ws.steering
        filtered := d.filtered } dtRaw
    let ws1 := { d.ws with ffb_offset := out.1, ffb_velocity := out.2.1 }
    { d with ws := (ApplySteeringLocked ws1).1, filtered := out.2.2 }
  else d

/-- Delivery of one complete 7-byte packet by the read pump
(`ReadGadgetOutput` calls `ParseFFBCommand` only when
`output_enabled`; `ParseFFBCommand` itself checks `enabled` under the
lock). -/
def devRecv (d : Device) (data : List ℕ) : Device :=
  if d.output_enabled then
    { d with ws := (ParseFFBCommand d.enabled d.ws data).1 }
  else d

/-- An operation of one of the two internal threads that can interleave
with the enable path while `enabled` and `output_enabled` are both
true: an FFB tick or a complete packet delivered by the read pump. -/
inductive WinOp where
  | tick (expf : F → F) (dtRaw : F) : WinOp
  | recv (data : List ℕ) : WinOp

/-- Apply one window operation. -/
def winStep (d : Device) : WinOp → Device
  | .tick expf dtRaw => devTick d expf dtRaw
  | .recv data => devRecv d data

/-- Apply a window of internal-thread operations. -/
def runWin (d : Device) (w : List WinOp) : Device := w.foldl winStep d

/-- One observable operation on the device. -/
inductive Op where
  /-- `SendNeutral(true)` performed by `Create()`. -/
  | createNeutral : Op
  /-- `SetEnabled(true, …)`; the booleans are the environment outcomes
  of, in order: `GrabDevices(true)`, `AllRequiredGrabbed()`,
  `BindUDC()` (or already bound), `WaitForEndpointReady()`, and — after
  the two windows — `WaitForStateFlush(150)` and the fallback
  `WriteReportBlocking`.  `win1` holds the internal-thread operations
  between the `output_enabled = true` store (line 186) and
  `ApplyNeutralLocked(false)` (line 192); `win2` holds those during the
  flush wait (line 196). -/
  | enable (grabOk reqOk bindOk readyOk : Bool) (win1 win2 : List WinOp)
      (flushOk primeOk : Bool) : Op
  /-- `SetEnabled(false, …)`.  During its flush wait `enabled` is
  already false, so the FFB thread sleeps and `ParseFFBCommand`
  returns without mutating: the disable path needs no windows. -/
  | disable : Op
  /-- `ProcessInputFrame(frame, sensitivity)` with mouse delta `dx`. -/
  | inputFrame (dx sensitivity : ℤ) (snap : WheelInputState) : Op
  /-- A complete 7-byte packet delivered by the read pump. -/
  | parseFFB (data : List ℕ) : Op
  /-- One iteration of `FFBUpdateThread` with measured duration
  `dtRaw`, using `expf` for `std::exp`. -/
  | ffbTickOp (expf : F → F) (dtRaw : F) : Op
  /-- `SetFFBGain(g)`. -/
  | setGain (g : F) : Op

/-- The enable path of `SetEnabled(true, …)` from a disabled device
(lines 131-214 of `wheel_device.cpp`).  Up to line 186 `output_enabled`
is false (a disabled device always has it false), so the internal
threads cannot mutate state and the early phases are modelled
atomically; from the `output_enabled = true` store onward the two
windows interleave.  A flush+prime failure (lines 198-208) reverts
`enabled` and `output_enabled` but does NOT re-apply neutral: the
window drift survives into the disabled state. -/
def stepEnable (d : Device) (grabOk reqOk bindOk readyOk : Bool)
    (win1 win2 : List WinOp) (flushOk primeOk : Bool) : Device :=
  if d.enabled then d        -- `enabled` already true: `changed = false`, return
  else if ¬grabOk then d     -- grab failed: revert `enabled`, state untouched
  else if ¬reqOk then d      -- required device missing: revert, state untouched
  else
    -- output_enabled := false; ApplyNeutralLocked(false); build neutral report
    let ws1 := ApplyNeutralLocked false d.ws
    if ¬bindOk then
      { d with enabled := false, output_enabled := false
               ws := ApplyNeutralLocked true ws1 }
    else if ¬readyOk then
      { d with enabled := false, output_enabled := false, ws := ws1 }
    else
      -- line 186: output_enabled := true with `enabled` already true
      let d1 := runWin { d with enabled := true, output_enabled := true, ws := ws1 } win1
      -- line 192: ApplyNeutralLocked(false)
      let d2 := { d1 with ws := ApplyNeutralLocked false d1.ws }
      -- line 196: WaitForStateFlush(150)
      let d3 := runWin d2 win2
      if flushOk then d3
      else if primeOk then d3  -- output toggled off and back on around the
                               -- fallback write; no state field changes
      else { d3 with enabled := false, output_enabled := false }

/-- One step of the transition system. -/
def step (d : Device) : Op → Device
  | .createNeutral => { d with ws := ApplyNeutralLocked true d.ws }
  | .enable g r b rd w1 w2 f p => stepEnable d g r b rd w1 w2 f p
  | .disable =>
      if ¬d.enabled then d   -- `changed = false`: only releases the input grab
      else { d with enabled := false, output_enabled := false
                    ws := ApplyNeutralLocked true d.ws }
  | .inputFrame dx sens snap =>
      if d.enabled && d.output_enabled then
        let ws1 := (ApplySteeringDeltaLocked d.ws dx sens).1
        { d with ws := (ApplySnapshotLocked ws1 snap).1 }
      else d
  | .parseFFB data => devRecv d data
  | .ffbTickOp expf dtRaw => devTick d expf dtRaw
  | .setGain g =>
      let g1 := if F.lt g lit0_1 then lit0_1 else if F.lt (F.ofInt 4) g then F.ofInt 4 else g
      { d with ws := { d.ws with ffb_gain := g1 } }

/-- Run a sequence of operations from the freshly constructed device. -/
def run (ops : List Op) : Device := ops.foldl step initialDevice

/-! ## Invariants -/

/-- The neutral wheel-state fields: zero axes, dpad centred, no
buttons, FFB offset and velocity zero.  (`ffb_force`,
`ffb_autocenter` and `ffb_gain` are deliberately absent: no code path
resets them on disable.) -/
def NeutralCore (ws : WheelState) : Prop :=
  ws.steering = F.zero ∧ ws.user_steering = F.zero ∧ ws.ffb_offset = F.zero ∧
  ws.ffb_velocity = F.zero ∧ ws.throttle = F.zero ∧ ws.brake = F.zero ∧
  ws.clutch = F.zero ∧ ws.dpad_x = 0 ∧ ws.dpad_y = 0 ∧
  ws.button_states = List.replicate 26 false

instance (ws : WheelState) : Decidable (NeutralCore ws) := by
  unfold NeutralCore; exact inferInstance

/-- `steering` is within the `0.1f` update threshold of
`clamp(user_steering + ffb_offset, -32768, 32767)`. -/
def SteerInv (ws : WheelState) : Prop :=
  F.lt (fabsF (fsub (clampF (fadd ws.user_steering ws.ffb_offset)
      (F.ofInt (-32768)) (F.ofInt 32767)) ws.steering)) lit0_1

instance (ws : WheelState) : Decidable (SteerInv ws) := by
  unfold SteerInv; exact inferInstance

/-- The input-derived wheel-state fields at neutral: zero pedals and
`user_steering`, dpad centred, no buttons.  These are the fields no
FFB tick or FFB decode ever writes, so — unlike `steering`,
`ffb_offset` and `ffb_velocity`, which can drift during an enable
attempt's flush window — they are neutral in every disabled state. -/
def NeutralInput (ws : WheelState) : Prop :=
  ws.user_steering = F.zero ∧ ws.throttle = F.zero ∧ ws.brake = F.zero ∧
  ws.clutch = F.zero ∧ ws.dpad_x = 0 ∧ ws.dpad_y = 0 ∧
  ws.button_states = List.replicate 26 false

instance (ws : WheelState) : Decidable (NeutralInput ws) := by
  unfold NeutralInput; exact inferInstance

/-- The inductive invariant of the transition system: a disabled
device has neutral input-derived fields. -/
def DevInv (d : Device) : Prop := d.enabled = false → NeutralInput d.ws

instance (d : Device) : Decidable (DevInv d) := by
  unfold DevInv; exact inferInstance

/-! ## Spec-side definitions and concrete claim inputs

The `spec…` definitions below transcribe the specification's words
(real-number arithmetic with rounding to nearest), to be compared with
the embedded code; they are not part of the code model. -/

/-- Following the spec's words: the 16-bit axis value
`65535 − round(axis × 655.35)`, read over the real value of the axis. -/
def specAxisEnc (x : F) : ℤ := 65535 - round (x.toQ * ((65535 : ℚ) / 100))

/-- Following the spec's words (claim C1): bytes 2-3 hold the clutch,
bytes 4-5 the brake, bytes 6-7 the throttle, each little-endian
`65535 − round(axis × 655.35)`. -/
def specC1Layout (ws : WheelState) : Prop :=
  let r := BuildHIDReportLocked ws
  ((r.getD 2 0 : ℤ) + 256 * (r.getD 3 0 : ℤ) = specAxisEnc ws.clutch) ∧
  ((r.getD 4 0 : ℤ) + 256 * (r.getD 5 0 : ℤ) = specAxisEnc ws.brake) ∧
  ((r.getD 6 0 : ℤ) + 256 * (r.getD 7 0 : ℤ) = specAxisEnc ws.throttle)

/-- Following the spec's words (claim C7): the encoded pedal value
equals `65535 − round(value × 655.35)`. -/
def specPedalFormula (x : F) : Prop := (pedalEnc x : ℤ) = specAxisEnc x

/-- A successful `SetEnabled(true)`: every environment interaction
succeeds and no internal-thread operation lands in the windows. -/
def enableAll : Op := Op.enable true true true true [] [] true true

/-- A wheel state with only the brake pressed (used against C1's
byte-order claim). -/
def wsBrakePressed : WheelState := { initialWheelState with brake := F.ofInt 100 }

/-- A stand-in for `std::exp` returning `0.5f` everywhere (any value in
(0, 1) lets one window tick both pass force through the low-pass filter
and keep some velocity after damping). -/
def halfExp : F → F := fun _ => ⟨1, -1⟩

/-- An enable attempt whose flush wait sees a host constant-force
command (`0x11`, magnitude byte `0xC0`) followed by one FFB tick, and
then fails both the pump flush and the fallback write: `SetEnabled`
reverts `enabled` without re-applying neutral, so the tick's drift of
`ffb_offset`/`ffb_velocity`/`steering` — and the decoded `ffb_force` —
survive into the disabled state. -/
def traceC2 : List Op :=
  [Op.enable true true true true []
    [WinOp.recv [0x11, 0x08, 0xC0, 0x80, 0, 0, 0], WinOp.tick halfExp (F.ofInt 1)]
    false false]

/-- Enable, then apply a single input frame with a one-count mouse
delta at sensitivity 1 (steering step `0.05f`, below the `0.1f`
update threshold). -/
def traceC3 : List Op := [enableAll, Op.inputFrame 1 1 neutralSnap]

/-- Enable, then apply ten input frames of `mouse_dx = +100` at
sensitivity 50 (the spec's steering-accumulation scenario). -/
def traceC5 : List Op := enableAll :: List.replicate 10 (Op.inputFrame 100 50 neutralSnap)

/-- A tick snapshot near the positive offset limit with a large
stored velocity, used to exercise the ±22000 clamp. -/
def exTickIn : FFBTickIn :=
  { force := 0, autocenter := 0, offset := F.ofInt 21999
    velocity := F.ofInt 9000000, gain := F.ofInt 1, steering := F.zero
    filtered := F.zero }

/-- A trivial stand-in for `std::exp` (the tick theorems hold for every
such function, so the witness may pick any). -/
def exExp : F → F := fun _ => F.ofInt 1

/-! ## Helper lemmas -/

theorem fsub_self (a : F) : fsub a a = F.zero := by
  simp [fsub, fadd, fneg, F.scaledPair, froundZ, roundMag, F.zero]

theorem fabsF_zero : fabsF F.zero = F.zero := rfl

theorem F.le_of_not_lt {a b : F} (h : ¬ F.lt a b) : F.le b a := by
  unfold F.lt at h
  unfold F.le
  unfold F.scaledPair at h ⊢
  rcases le_or_lt a.e b.e with h1 | h1 <;> rcases le_or_lt b.e a.e with h2 | h2
  · have hab : b.e - a.e = 0 := by omega
    have hba : a.e - b.e = 0 := by omega
    simp only [if_pos h1, if_pos h2, hab, hba, Int.toNat_zero, pow_zero,
      Nat.cast_one, mul_one] at h ⊢
    exact Int.not_lt.mp h
  · simp only [if_pos h1, if_neg (not_le.mpr h2)] at h ⊢
    exact Int.not_lt.mp h
  · simp only [if_neg (not_le.mpr h1), if_pos h2] at h ⊢
    exact Int.not_lt.mp h
  · omega

theorem steerInv_applySteeringLocked (ws : WheelState) :
    SteerInv (ApplySteeringLocked ws).1 := by
  unfold ApplySteeringLocked
  dsimp only
  split
  next h => exact h
  next h =>
    unfold SteerInv
    simp [fsub_self, fabsF_zero]
    decide

theorem steerInv_applySteeringDelta_ne (ws : WheelState) (dx s : ℤ) (h : dx ≠ 0) :
    SteerInv (ApplySteeringDeltaLocked ws dx s).1 := by
  unfold ApplySteeringDeltaLocked
  dsimp only
  rw [if_neg h]
  exact steerInv_applySteeringLocked _

theorem applySnapshot_fixed (ws : WheelState) (snap : WheelInputState) :
    (ApplySnapshotLocked ws snap).1.steering = ws.steering ∧
    (ApplySnapshotLocked ws snap).1.user_steering = ws.user_steering ∧
    (ApplySnapshotLocked ws snap).1.ffb_offset = ws.ffb_offset := by
  simp [ApplySnapshotLocked]

theorem steerInv_applySnapshot (ws : WheelState) (snap : WheelInputState)
    (h : SteerInv ws) : SteerInv (ApplySnapshotLocked ws snap).1 := by
  unfold SteerInv at h ⊢
  rcases applySnapshot_fixed ws snap with ⟨h1, h2, h3⟩
  rw [h1, h2, h3]
  exact h

theorem parse_fixed (e : Bool) (ws : WheelState) (data : List ℕ) :
    (ParseFFBCommand e ws data).1.steering = ws.steering ∧
    (ParseFFBCommand e ws data).1.user_steering = ws.user_steering ∧
    (ParseFFBCommand e ws data).1.ffb_offset = ws.ffb_offset ∧
    (ParseFFBCommand e ws data).1.ffb_velocity = ws.ffb_velocity ∧
    (ParseFFBCommand e ws data).1.throttle = ws.throttle ∧
    (ParseFFBCommand e ws data).1.brake = ws.brake ∧
    (ParseFFBCommand e ws data).1.clutch = ws.clutch ∧
    (ParseFFBCommand e ws data).1.dpad_x = ws.dpad_x ∧
    (ParseFFBCommand e ws data).1.dpad_y = ws.dpad_y ∧
    (ParseFFBCommand e ws data).1.button_states = ws.button_states := by
  unfold ParseFFBCommand
  simp

theorem parseCore_disabled (f ac : ℤ) (data : List ℕ) :
    parseFFBCore false f ac data = (f, ac, false) := by
  unfold parseFFBCore
  split_ifs <;> simp_all

theorem parse_disabled (ws : WheelState) (data : List ℕ) :
    ParseFFBCommand false ws data = (ws, false) := by
  unfold ParseFFBCommand
  rw [parseCore_disabled]

theorem parseCore_wrong_size (e : Bool) (f ac : ℤ) (data : List ℕ)
    (h : data.length ≠ 7) : parseFFBCore e f ac data = (f, ac, false) := by
  unfold parseFFBCore
  rw [if_pos h]

theorem parse_wrong_size (e : Bool) (ws : WheelState) (data : List ℕ)
    (h : data.length ≠ 7) : ParseFFBCommand e ws data = (ws, false) := by
  unfold ParseFFBCommand
  rw [parseCore_wrong_size e _ _ _ h]

theorem steerInv_parse (e : Bool) (ws : WheelState) (data : List ℕ) (h : SteerInv ws) :
    SteerInv (ParseFFBCommand e ws data).1 := by
  have hf := parse_fixed e ws data
  unfold SteerInv at h ⊢
  rw [hf.1, hf.2.1, hf.2.2.1]
  exact h

theorem neutralCore_true (ws : WheelState) :
    NeutralCore (ApplyNeutralLocked true ws) := by
  simp [NeutralCore, ApplyNeutralLocked]

theorem steerInv_neutral_true (ws : WheelState) :
    SteerInv (ApplyNeutralLocked true ws) := by
  unfold SteerInv ApplyNeutralLocked
  simp only [ite_true]
  decide

theorem neutralInput_neutral (b : Bool) (ws : WheelState) :
    NeutralInput (ApplyNeutralLocked b ws) := by
  unfold NeutralInput ApplyNeutralLocked
  exact ⟨rfl, rfl, rfl, rfl, rfl, rfl, rfl⟩

theorem applySteeringLocked_input_fixed (ws : WheelState) :
    (ApplySteeringLocked ws).1.user_steering = ws.user_steering ∧
    (ApplySteeringLocked ws).1.throttle = ws.throttle ∧
    (ApplySteeringLocked ws).1.brake = ws.brake ∧
    (ApplySteeringLocked ws).1.clutch = ws.clutch ∧
    (ApplySteeringLocked ws).1.dpad_x = ws.dpad_x ∧
    (ApplySteeringLocked ws).1.dpad_y = ws.dpad_y ∧
    (ApplySteeringLocked ws).1.button_states = ws.button_states := by
  unfold ApplySteeringLocked
  dsimp only
  split <;> exact ⟨rfl, rfl, rfl, rfl, rfl, rfl, rfl⟩

theorem neutralInput_applySteeringLocked (ws : WheelState) (h : NeutralInput ws) :
    NeutralInput (ApplySteeringLocked ws).1 := by
  obtain ⟨h1, h2, h3, h4, h5, h6, h7⟩ := h
  have hf := applySteeringLocked_input_fixed ws
  exact ⟨hf.1.trans h1, hf.2.1.trans h2, hf.2.2.1.trans h3, hf.2.2.2.1.trans h4,
    hf.2.2.2.2.1.trans h5, hf.2.2.2.2.2.1.trans h6, hf.2.2.2.2.2.2.trans h7⟩

theorem devTick_enabled (d : Device) (expf : F → F) (dtRaw : F) :
    (devTick d expf dtRaw).enabled = d.enabled := by
  unfold devTick
  split <;> rfl

theorem devRecv_enabled (d : Device) (data : List ℕ) :
    (devRecv d data).enabled = d.enabled := by
  unfold devRecv
  split <;> rfl

theorem winStep_enabled (d : Device) (o : WinOp) :
    (winStep d o).enabled = d.enabled := by
  cases o with
  | tick expf dtRaw => exact devTick_enabled d expf dtRaw
  | recv data => exact devRecv_enabled d data

theorem runWin_enabled (w : List WinOp) : ∀ d : Device, (runWin d w).enabled = d.enabled := by
  induction w with
  | nil => exact fun _ => rfl
  | cons o t ih => exact fun d => (ih (winStep d o)).trans (winStep_enabled d o)

theorem neutralInput_devTick (d : Device) (expf : F → F) (dtRaw : F)
    (h : NeutralInput d.ws) : NeutralInput (devTick d expf dtRaw).ws := by
  unfold devTick
  split
  · exact neutralInput_applySteeringLocked _ h
  · exact h

theorem neutralInput_devRecv (d : Device) (data : List ℕ)
    (h : NeutralInput d.ws) : NeutralInput (devRecv d data).ws := by
  unfold devRecv
  split
  · have hf := parse_fixed d.enabled d.ws data
    obtain ⟨g1, g2, g3, g4, g5, g6, g7⟩ := h
    exact ⟨hf.2.1.trans g1, hf.2.2.2.2.1.trans g2, hf.2.2.2.2.2.1.trans g3,
      hf.2.2.2.2.2.2.1.trans g4, hf.2.2.2.2.2.2.2.1.trans g5,
      hf.2.2.2.2.2.2.2.2.1.trans g6, hf.2.2.2.2.2.2.2.2.2.trans g7⟩
  · exact h

theorem neutralInput_winStep (d : Device) (o : WinOp) (h : NeutralInput d.ws) :
    NeutralInput (winStep d o).ws := by
  cases o with
  | tick expf dtRaw => exact neutralInput_devTick d expf dtRaw h
  | recv data => exact neutralInput_devRecv d data h

theorem neutralInput_runWin (w : List WinOp) :
    ∀ d : Device, NeutralInput d.ws → NeutralInput (runWin d w).ws := by
  induction w with
  | nil => exact fun _ h => h
  | cons o t ih => exact fun d h => ih (winStep d o) (neutralInput_winStep d o h)

theorem devInv_stepEnable (d : Device) (g r b rd : Bool) (w1 w2 : List WinOp)
    (fl p : Bool) (h : DevInv d) : DevInv (stepEnable d g r b rd w1 w2 fl p) := by
  unfold stepEnable
  by_cases he : d.enabled = true
  · rw [if_pos he]; exact h
  rw [if_neg he]
  by_cases hg : ¬g = true
  · rw [if_pos hg]; exact h
  rw [if_neg hg]
  by_cases hr : ¬r = true
  · rw [if_pos hr]; exact h
  rw [if_neg hr]
  by_cases hb : ¬b = true
  · rw [if_pos hb]; exact fun _ => neutralInput_neutral _ _
  rw [if_neg hb]
  by_cases hrd : ¬rd = true
  · rw [if_pos hrd]; exact fun _ => neutralInput_neutral _ _
  rw [if_neg hrd]
  dsimp only
  by_cases hfl : fl = true
  · rw [if_pos hfl]
    intro hco
    simp only [runWin_enabled] at hco
    exact Bool.noConfusion hco
  rw [if_neg hfl]
  by_cases hp : p = true
  · rw [if_pos hp]
    intro hco
    simp only [runWin_enabled] at hco
    exact Bool.noConfusion hco
  rw [if_neg hp]
  exact fun _ => neutralInput_runWin _ _ (neutralInput_neutral _ _)

theorem devInv_step (d : Device) (op : Op) (h : DevInv d) : DevInv (step d op) := by
  cases op with
  | createNeutral => exact fun _ => neutralInput_neutral _ _
  | enable g r b rd w1 w2 fl p => exact devInv_stepEnable d g r b rd w1 w2 fl p h
  | disable =>
      simp only [step]
      split
      · exact h
      · exact fun _ => neutralInput_neutral _ _
  | inputFrame dx s snap =>
      simp only [step]
      split
      next hgate =>
        intro hco
        rw [(Bool.and_eq_true _ _).mp hgate |>.1] at hco
        exact Bool.noConfusion hco
      next => exact h
  | parseFFB data =>
      simp only [step]
      intro hco
      rw [devRecv_enabled] at hco
      exact neutralInput_devRecv _ _ (h hco)
  | ffbTickOp expf dt =>
      simp only [step]
      intro hco
      rw [devTick_enabled] at hco
      exact neutralInput_devTick _ _ _ (h hco)
  | setGain g =>
      simp only [step]
      intro hco
      exact h hco

theorem devInv_run (ops : List Op) : DevInv (run ops) := by
  unfold run
  have hinit : DevInv initialDevice := by decide
  revert hinit
  generalize initialDevice = d
  revert d
  induction ops with
  | nil => exact fun d h => h
  | cons a t ih => exact fun d h => ih _ (devInv_step d a h)

theorem pedalEnc_lt (x : F) : pedalEnc x < 65536 := by
  unfold pedalEnc
  omega

theorem i8_sub_bias (b : ℕ) (h : b < 256) :
    i8wrap (i8ofByte b - 128) = i8ofByte ((b + 128) % 256) := by
  unfold i8wrap i8ofByte
  split_ifs <;> omega

theorem specAxisEnc_pressed : specAxisEnc (F.ofInt 100) = 0 := by
  have h100 : F.ofInt 100 = ⟨25, 2⟩ := by decide
  have htoQ : F.toQ ⟨25, 2⟩ = 100 := by
    unfold F.toQ
    have h2 : Int.toNat 2 = 2 := rfl
    norm_num [h2]
  rw [h100]
  unfold specAxisEnc
  rw [htoQ]
  norm_num [round_eq]

theorem buttonBits_fold_lt (l : List ℕ) (bs : List Bool) :
    ∀ acc : ℕ, (∀ i ∈ l, i < 26) → acc < 2 ^ 26 →
      (l.foldl (fun bits i => if bs.getD i false then bits ||| (1 <<< i) else bits) acc) < 2 ^ 26 := by
  induction l with
  | nil => exact fun acc _ h => h
  | cons a t ih =>
      intro acc hmem hacc
      refine ih _ (fun i hi => hmem i (List.mem_cons_of_mem a hi)) ?_
      dsimp only
      split
      next =>
        have ha : a < 26 := hmem a (List.mem_cons_self a t)
        have h1 : (1 <<< a) < 2 ^ 26 := by
          rw [Nat.one_shiftLeft]
          exact Nat.pow_lt_pow_right (by norm_num) ha
        exact Nat.or_lt_two_pow hacc h1
      next => exact hacc

theorem bits_lt (bs : List Bool) : buildButtonBitsLocked bs < 2 ^ 26 := by
  unfold buildButtonBitsLocked
  exact buttonBits_fold_lt _ bs 0 (fun i hi => List.mem_range.mp hi) (by norm_num)

theorem report_byte2 (ws : WheelState) :
    (BuildHIDReportLocked ws).getD 2 0 = pedalEnc ws.clutch % 256 := rfl

theorem report_byte3 (ws : WheelState) :
    (BuildHIDReportLocked ws).getD 3 0 = pedalEnc ws.clutch / 256 % 256 := rfl

theorem report_byte4 (ws : WheelState) :
    (BuildHIDReportLocked ws).getD 4 0 = pedalEnc ws.throttle % 256 := rfl

theorem report_byte5 (ws : WheelState) :
    (BuildHIDReportLocked ws).getD 5 0 = pedalEnc ws.throttle / 256 % 256 := rfl

theorem report_byte6 (ws : WheelState) :
    (BuildHIDReportLocked ws).getD 6 0 = pedalEnc ws.brake % 256 := rfl

theorem report_byte7 (ws : WheelState) :
    (BuildHIDReportLocked ws).getD 7 0 = pedalEnc ws.brake / 256 % 256 := rfl

theorem report_byte12 (ws : WheelState) :
    (BuildHIDReportLocked ws).getD 12 0
      = buildButtonBitsLocked ws.button_states / 2 ^ 24 % 256 := rfl

theorem pedalEnc_released : pedalEnc F.zero = 65535 := by decide

theorem pedalEnc_pressed : pedalEnc (F.ofInt 100) = 1 := by decide

theorem pedal_pair_bytes (x : F) (h : x = F.zero ∨ x = F.ofInt 100) :
    (pedalEnc x % 256, pedalEnc x / 256 % 256)
      = (if x = F.ofInt 100 then (1, 0) else (255, 255)) := by
  rcases h with h | h <;> rw [h]
  · rw [if_neg (by decide), pedalEnc_released]
  · rw [if_pos rfl, pedalEnc_pressed]

/-! ## Claim theorems -/

/-- C1 counterexample: the spec's byte layout (clutch 2-3, brake 4-5,
throttle 6-7, each `65535 − round(axis × 655.35)`) does not hold: with
only the brake pressed, the code writes the throttle's resting value
0xFFFF to bytes 4-5, while the spec formula demands the pressed brake
value 0 there. -/
theorem c1_spec_layout_false : ¬ specC1Layout wsBrakePressed := by
  intro hspec
  obtain ⟨h23, h45, h67⟩ := hspec
  have hb4 : (BuildHIDReportLocked wsBrakePressed).getD 4 0 = 255 := by decide
  have hb5 : (BuildHIDReportLocked wsBrakePressed).getD 5 0 = 255 := by decide
  rw [hb4, hb5] at h45
  have hbrake : wsBrakePressed.brake = F.ofInt 100 := rfl
  rw [hbrake, specAxisEnc_pressed] at h45
  norm_num at h45

/-- C1 (amended): the 13-byte report encodes the clutch in bytes 2-3,
the THROTTLE in bytes 4-5 and the BRAKE in bytes 6-7 (little-endian),
each as `65535 − uint16(axis × 655.35f)` with the float product
truncated toward zero (`pedalEnc`). -/
theorem c1_report_axis_layout (ws : WheelState) :
    (BuildHIDReportLocked ws).getD 2 0 + 256 * (BuildHIDReportLocked ws).getD 3 0
      = pedalEnc ws.clutch ∧
    (BuildHIDReportLocked ws).getD 4 0 + 256 * (BuildHIDReportLocked ws).getD 5 0
      = pedalEnc ws.throttle ∧
    (BuildHIDReportLocked ws).getD 6 0 + 256 * (BuildHIDReportLocked ws).getD 7 0
      = pedalEnc ws.brake := by
  have hc := pedalEnc_lt ws.clutch
  have ht := pedalEnc_lt ws.throttle
  have hb := pedalEnc_lt ws.brake
  rw [report_byte2, report_byte3, report_byte4, report_byte5, report_byte6,
    report_byte7]
  refine ⟨?_, ?_, ?_⟩ <;> omega

/-- C3 counterexample: a single mouse delta of +1 at sensitivity 1
moves `user_steering` to `0.05f`, below the `0.1f` update threshold of
`ApplySteeringLocked`, so `steering` stays 0 and the claimed exact
equality `steering = clamp(user_steering + ffb_offset)` fails. -/
theorem c3_steering_exact_equality_false :
    clampF (fadd (run traceC3).ws.user_steering (run traceC3).ws.ffb_offset)
      (F.ofInt (-32768)) (F.ofInt 32767) ≠ (run traceC3).ws.steering := by
  decide

/-- C3 (amended): `steering` stays within `0.1f` of
`clamp(user_steering + ffb_offset, −32768, 32767)` after every
mutation that recomputes it: a steering-delta application with a
nonzero delta and each FFB tick's write-back (both end in
`ApplySteeringLocked`) re-establish the bound from any state,
`ApplyNeutralLocked(true)` establishes it exactly, and snapshot
application and FFB decoding preserve it.  The one exception — forced
by the enable path — is `ApplyNeutralLocked(false)`, which zeroes
`steering` and `user_steering` while keeping `ffb_offset`: applied to
a state whose offset drifted during a failed enable's flush window it
leaves a deviation of `|ffb_offset|` until the next tick write-back
(see `neutral_false_keeps_drifted_offset`). -/
theorem c3_steering_tracks_clamped_sum :
    (∀ ws : WheelState, SteerInv (ApplySteeringLocked ws).1) ∧
    (∀ (ws : WheelState) (dx s : ℤ), dx ≠ 0 →
      SteerInv (ApplySteeringDeltaLocked ws dx s).1) ∧
    (∀ (ws : WheelState) (snap : WheelInputState), SteerInv ws →
      SteerInv (ApplySnapshotLocked ws snap).1) ∧
    (∀ ws : WheelState, SteerInv (ApplyNeutralLocked true ws)) ∧
    (∀ (e : Bool) (ws : WheelState) (data : List ℕ), SteerInv ws →
      SteerInv (ParseFFBCommand e ws data).1) :=
  ⟨steerInv_applySteeringLocked, steerInv_applySteeringDelta_ne,
   steerInv_applySnapshot, steerInv_neutral_true, steerInv_parse⟩

/-- C3 witness: a +1000 delta at sensitivity 50 (step clamped to 2000)
re-establishes the bound, and applying the neutral snapshot to the
fresh state preserves it. -/
theorem c3_steering_tracks_clamped_sum_witness :
    ((1000 : ℤ) ≠ 0 ∧ SteerInv (ApplySteeringDeltaLocked initialWheelState 1000 50).1) ∧
    (SteerInv initialWheelState ∧
      SteerInv (ApplySnapshotLocked initialWheelState neutralSnap).1) :=
  ⟨⟨by decide, c3_steering_tracks_clamped_sum.2.1 initialWheelState 1000 50 (by decide)⟩,
   ⟨by decide, c3_steering_tracks_clamped_sum.2.2.1 initialWheelState neutralSnap (by decide)⟩⟩

/-- The mutation excluded from C3's bound is real: `ApplyNeutralLocked
false` applied to the reachable disabled state left by `traceC2`
(whose `ffb_offset` drifted to about −7.8 during the failed enable's
flush window) zeroes `steering` and `user_steering` but keeps the
offset, so the recomputed clamped sum differs from `steering` by more
than `0.1f`.  This is exactly the state line 159 sees on the next
enable attempt. -/
theorem neutral_false_keeps_drifted_offset :
    ¬ SteerInv (ApplyNeutralLocked false (run traceC2).ws) := by
  decide

/-- C4 (confirmed): decoding a 7-byte report with first byte `0x11`
sets `ffb_force = −(i8(data[2] − 0x80)) × 48`; in particular
`data[2] = 0xC0` yields −3072. -/
theorem c4_parse_0x11_constant_force (ws : WheelState) (d2 : Fin 256)
    (d1 d3 d4 d5 d6 : ℕ) :
    (ParseFFBCommand true ws [0x11, d1, d2.val, d3, d4, d5, d6]).1.ffb_force
      = -(i8ofByte ((d2.val + 128) % 256)) * 48 ∧
    (ParseFFBCommand true ws [0x11, 0x08, 0xC0, 0x80, 0, 0, 0]).1.ffb_force = -3072 := by
  constructor
  · unfold ParseFFBCommand parseFFBCore
    simp [i8_sub_bias d2.val d2.isLt]
  · unfold ParseFFBCommand parseFFBCore
    simp
    decide

/-- C5 counterexample: ten frames of `mouse_dx = +100` at sensitivity
50 accumulate 10 × 100 × 50 × 0.05 = 2500 into `user_steering`, not
the spec's 25000, and the steering bytes are not `[0xE8, 0xE1]`. -/
theorem c5_spec_accumulation_false :
    (run traceC5).ws.user_steering ≠ F.ofInt 25000 ∧
    (BuildHIDReportLocked (run traceC5).ws).getD 0 0 ≠ 0xE8 := by
  decide

/-- C5 (amended): from neutral with sensitivity 50, ten frames of
`mouse_dx = +100` yield `user_steering = 2500` (each step is
100 × 50 × 0.05 = 250), and the next report's steering bytes are the
little-endian encoding of 2500 + 32768 = 35268: `[0xC4, 0x89]`. -/
theorem c5_steering_accumulation :
    (run traceC5).ws.user_steering = F.ofInt 2500 ∧
    (BuildHIDReportLocked (run traceC5).ws).getD 0 0 = 0xC4 ∧
    (BuildHIDReportLocked (run traceC5).ws).getD 1 0 = 0x89 := by
  decide

/-- C6 (confirmed): every FFB tick ends with
`ffb_offset ∈ [−22000, 22000]`, and whenever the unclamped offset
crossed ±22000 (so the clamp fired), the tick ends with
`ffb_velocity = 0`.  Holds for every model of `std::exp` and every
snapshot and duration. -/
theorem c6_ffb_tick_offset_clamped (expf : F → F) (inp : FFBTickIn) (dtRaw : F) :
    (F.le (F.ofInt (-22000)) (ffbTick expf inp dtRaw).1 ∧
     F.le (ffbTick expf inp dtRaw).1 (F.ofInt 22000)) ∧
    ((F.lt (F.ofInt 22000) (ffbTickPre expf inp dtRaw).1 ∨
      F.lt (ffbTickPre expf inp dtRaw).1 (F.ofInt (-22000))) →
      (ffbTick expf inp dtRaw).2.1 = F.zero) := by
  unfold ffbTick
  dsimp only
  by_cases h1 : F.lt (F.ofInt 22000) (ffbTickPre expf inp dtRaw).1
  · rw [if_pos h1]
    exact ⟨⟨(by decide : F.le (F.ofInt (-22000)) (F.ofInt 22000)),
      (by decide : F.le (F.ofInt 22000) (F.ofInt 22000))⟩, fun _ => rfl⟩
  rw [if_neg h1]
  by_cases h2 : F.lt (ffbTickPre expf inp dtRaw).1 (F.ofInt (-22000))
  · rw [if_pos h2]
    exact ⟨⟨(by decide : F.le (F.ofInt (-22000)) (F.ofInt (-22000))),
      (by decide : F.le (F.ofInt (-22000)) (F.ofInt 22000))⟩, fun _ => rfl⟩
  rw [if_neg h2]
  refine ⟨⟨F.le_of_not_lt h2, F.le_of_not_lt h1⟩, fun hor => ?_⟩
  rcases hor with h | h
  · exact absurd h h1
  · exact absurd h h2

/-- C6 witness: a tick starting at offset 21999 with stored velocity
9×10⁶ overshoots the limit (unclamped offset ≈ 22899), and the tick
ends clamped with zero velocity. -/
theorem c6_ffb_tick_offset_clamped_witness :
    F.lt (F.ofInt 22000) (ffbTickPre exExp exTickIn (F.ofInt 1)).1 ∧
    (ffbTick exExp exTickIn (F.ofInt 1)).2.1 = F.zero :=
  ⟨by decide, (c6_ffb_tick_offset_clamped exExp exTickIn (F.ofInt 1)).2 (Or.inl (by decide))⟩

/-- C7 counterexample: the spec formula
`encoded = 65535 − round(value × 655.35)` fails for a pressed pedal:
the code's float product `100 * 655.35f` is 65534.996…, truncated to
65534, so the encoded value is 1, while the formula demands 0. -/
theorem c7_round_formula_false : ¬ specPedalFormula (F.ofInt 100) := by
  unfold specPedalFormula
  have h1 : pedalEnc (F.ofInt 100) = 1 := by decide
  rw [h1, specAxisEnc_pressed]
  norm_num

/-- C7 (amended): each pedal axis is encoded as
`65535 − uint16(value × 655.35f)` with the float product truncated
toward zero; a pressed pedal (value 100.0) encodes to the little-endian
byte pair `[0x01, 0x00]` and a released pedal (value 0.0) to
`[0xFF, 0xFF]`. -/
theorem c7_pedal_byte_pairs (ws : WheelState)
    (hc : ws.clutch = F.zero ∨ ws.clutch = F.ofInt 100)
    (ht : ws.throttle = F.zero ∨ ws.throttle = F.ofInt 100)
    (hb : ws.brake = F.zero ∨ ws.brake = F.ofInt 100) :
    ((BuildHIDReportLocked ws).getD 2 0, (BuildHIDReportLocked ws).getD 3 0)
      = (if ws.clutch = F.ofInt 100 then (1, 0) else (255, 255)) ∧
    ((BuildHIDReportLocked ws).getD 4 0, (BuildHIDReportLocked ws).getD 5 0)
      = (if ws.throttle = F.ofInt 100 then (1, 0) else (255, 255)) ∧
    ((BuildHIDReportLocked ws).getD 6 0, (BuildHIDReportLocked ws).getD 7 0)
      = (if ws.brake = F.ofInt 100 then (1, 0) else (255, 255)) := by
  refine ⟨?_, ?_, ?_⟩
  · rw [report_byte2, report_byte3]
    exact pedal_pair_bytes _ hc
  · rw [report_byte4, report_byte5]
    exact pedal_pair_bytes _ ht
  · rw [report_byte6, report_byte7]
    exact pedal_pair_bytes _ hb

/-- C7 witness: the brake-pressed state satisfies the hypotheses and
shows the pressed pair `[0x01, 0x00]` on bytes 6-7 and released pairs
elsewhere. -/
theorem c7_pedal_byte_pairs_witness :
    (wsBrakePressed.brake = F.zero ∨ wsBrakePressed.brake = F.ofInt 100) ∧
    ((BuildHIDReportLocked wsBrakePressed).getD 6 0,
     (BuildHIDReportLocked wsBrakePressed).getD 7 0)
      = (if wsBrakePressed.brake = F.ofInt 100 then (1, 0) else (255, 255)) :=
  ⟨Or.inr (by decide),
   (c7_pedal_byte_pairs wsBrakePressed (Or.inl (by decide)) (Or.inl (by decide))
     (Or.inr (by decide))).2.2⟩

/-- C8 (confirmed): applying the same `WheelInputState` snapshot twice
in succession is idempotent: the second `ApplySnapshotLocked` returns
`changed = false` and leaves the state unchanged. -/
theorem c8_apply_snapshot_idempotent (ws : WheelState) (snap : WheelInputState) :
    ApplySnapshotLocked (ApplySnapshotLocked ws snap).1 snap
      = ((ApplySnapshotLocked ws snap).1, false) := by
  unfold ApplySnapshotLocked
  simp

/-- C9 (confirmed): a packet whose size differs from 7 bytes is
ignored regardless of enable state, and while `enabled = false`
decoding any packet leaves the state untouched and does not notify the
FFB controller (`ParseFFBCommand` never reads `output_enabled`, so
this holds whatever its value). -/
theorem c9_parse_gating (e : Bool) (ws : WheelState) (data : List ℕ) :
    (data.length ≠ 7 → ParseFFBCommand e ws data = (ws, false)) ∧
    ParseFFBCommand false ws data = (ws, false) :=
  ⟨fun h => parse_wrong_size e ws data h, parse_disabled ws data⟩

/-- C9 witness: a 3-byte packet is dropped while enabled, and a
complete 7-byte constant-force packet is ignored while disabled. -/
theorem c9_parse_gating_witness :
    ([1, 2, 3] : List ℕ).length ≠ 7 ∧
    ParseFFBCommand true initialWheelState [1, 2, 3] = (initialWheelState, false) ∧
    ParseFFBCommand false initialWheelState [0x11, 0x08, 0xC0, 0x80, 0, 0, 0]
      = (initialWheelState, false) :=
  ⟨by decide,
   (c9_parse_gating true initialWheelState [1, 2, 3]).1 (by decide),
   (c9_parse_gating false initialWheelState [0x11, 0x08, 0xC0, 0x80, 0, 0, 0]).2⟩

/-- C10 (confirmed): the button field ors together only bits 0-25, so
it is below 2^26 and the top six bits of report byte 12 are always
zero (the byte is below 4). -/
theorem c10_button_bits_bounded (ws : WheelState) :
    buildButtonBitsLocked ws.button_states < 2 ^ 26 ∧
    (BuildHIDReportLocked ws).getD 12 0 < 4 := by
  have hb := bits_lt ws.button_states
  refine ⟨hb, ?_⟩
  rw [report_byte12]
  omega

end WheelHid
